import Mathlib

/-!
Verification development for the datadiluvium schema-inference and
synthetic-data-generation core.

The TypeScript source is shallowly embedded:
* `Value` mirrors `GeneratedValue = string | number | boolean | Date`
  (plus `undef` for JavaScript's out-of-range-index `undefined`);
* JavaScript numbers are modelled as rationals (`ℚ`); the integral
  numeric options of the Sequential Number generator are modelled as `ℤ`;
* `Math.random()`, the faker library, the wall clock and `Math.sin` are
  modelled as uninterpreted streams in a `GenEnv` environment record;
* fallible code returns `Except String`.
-/

/-
Mathlib marks the executable `Rat` operations irreducible; re-exposing
them lets `decide` and `rfl` evaluate the embedded definitions on the
concrete rational inputs of the witnesses below.
-/
set_option allowUnsafeReducibility true
attribute [semireducible] Rat.mul Rat.add Rat.sub Rat.div Rat.neg Rat.inv Rat.blt Rat.floor Rat.ceil

deriving instance DecidableEq for Except

/-- A generated value: `GeneratedValue = string | number | boolean | Date`
in the source (`Date` carried as epoch milliseconds), plus `undef` for the
JavaScript `undefined` produced by an out-of-range array index. -/
inductive Value where
  | str (s : String)
  | num (q : ℚ)
  | bool (b : Bool)
  | date (ms : ℚ)
  | undef
deriving DecidableEq, Repr

/-- `GeneratorOptions` from `lib/generators/types.ts` (extended with the
humidity / temperature / time-range keys the later generators read).
Every key is optional; an absent key means the caller did not supply it,
so the generator's own default applies (the `{...defaults, ...options}`
merge in the source becomes `Option.getD` at each use site). -/
structure GeneratorOptions where
  passwordLength : Option ℚ := none
  passwordMemorability : Option Bool := none
  minNumber : Option ℚ := none
  maxNumber : Option ℚ := none
  decimalPlaces : Option ℚ := none
  startAt : Option ℤ := none
  step : Option ℤ := none
  padToLength : Option ℤ := none
  minDate : Option ℚ := none
  maxDate : Option ℚ := none
  textPrefix : Option String := none
  textSuffix : Option String := none
  casing : Option String := none
  format : Option String := none
  trueWeight : Option ℚ := none
  minAmount : Option ℚ := none
  maxAmount : Option ℚ := none
  currency : Option String := none
  gender : Option String := none
  referencedTable : Option String := none
  referencedColumn : Option String := none
  referencedValues : Option (List Value) := none
  minHumidity : Option ℚ := none
  maxHumidity : Option ℚ := none
  includeTimeVariation : Option Bool := none
  includeSeasonalVariation : Option Bool := none
  minTemperature : Option ℚ := none
  maxTemperature : Option ℚ := none
  useCelsius : Option Bool := none
  windowHours : Option ℚ := none
  randomizeStart : Option Bool := none
  startTimeRangeMin : Option String := none
  startTimeRangeMax : Option String := none
deriving DecidableEq, Repr

/-!
Character and string helpers.  The JavaScript string methods used by the
source (`toUpperCase`, `toLowerCase`, `trim`, `split`, `startsWith`) are
given list-based definitions that the kernel can evaluate; they agree
with the JavaScript methods on the ASCII inputs this code handles.
-/

/-- JavaScript `\s` (ASCII part: space, tab, newline, carriage return,
vertical tab, form feed). -/
def isWsChar (c : Char) : Bool :=
  c == ' ' || c == '\t' || c == '\n' || c == '\r' ||
  c == Char.ofNat 11 || c == Char.ofNat 12

/-- JavaScript `\w`: `[A-Za-z0-9_]`. -/
def isWordChar (c : Char) : Bool :=
  (97 ≤ c.toNat && c.toNat ≤ 122) || (65 ≤ c.toNat && c.toNat ≤ 90) ||
  (48 ≤ c.toNat && c.toNat ≤ 57) || c == '_'

/-- ASCII lower-casing of one character. -/
def charLower (c : Char) : Char :=
  if 65 ≤ c.toNat && c.toNat ≤ 90 then Char.ofNat (c.toNat + 32) else c

/-- ASCII upper-casing of one character. -/
def charUpper (c : Char) : Char :=
  if 97 ≤ c.toNat && c.toNat ≤ 122 then Char.ofNat (c.toNat - 32) else c

/-- JavaScript `toLowerCase()`. -/
def jsLower (s : String) : String := String.mk (s.data.map charLower)

/-- JavaScript `toUpperCase()`. -/
def jsUpper (s : String) : String := String.mk (s.data.map charUpper)

/-- JavaScript `trim()`. -/
def jsTrim (s : String) : String :=
  String.mk (((s.data.dropWhile isWsChar).reverse.dropWhile isWsChar).reverse)

/-- JavaScript `startsWith`. -/
def jsStartsWith (s pre : String) : Bool := pre.data.isPrefixOf s.data

/-- Worker for `jsSplitChar`. -/
def splitCharAux (sep : Char) : List Char → List Char → List String
  | [], acc => [String.mk acc.reverse]
  | c :: cs, acc =>
    if c = sep then String.mk acc.reverse :: splitCharAux sep cs []
    else splitCharAux sep cs (c :: acc)

/-- JavaScript `split(sep)` for a single-character separator. -/
def jsSplitChar (sep : Char) (s : String) : List String :=
  splitCharAux sep s.data []

/-- JavaScript `split('(')[0]`: the characters before the first `(`. -/
def beforeParen (s : String) : String :=
  String.mk (s.data.takeWhile (fun c => !(c == '(')))

/-- The execution environment: `Math.random()` streams, the faker
library's draws, the wall clock and the transcendental / formatting
functions of the JavaScript runtime, all as uninterpreted functions.
`rand i` is the `Math.random()` sample consumed for element `i` of a
generator invocation; `rand2 t j r` is the sample consumed by the
executor's phase-2 foreign-key draw for row `r` of column index `j` of
table `t`. -/
structure GenEnv where
  rand : ℕ → ℚ
  rand2 : String → ℕ → ℕ → ℚ
  randStart : ℚ
  uuid : ℕ → String
  firstName : ℕ → String
  firstNameG : String → ℕ → String
  lastName : ℕ → String
  email : ℕ → String
  dateBetween : ℚ → ℚ → ℕ → ℚ
  isoString : ℚ → String
  price : ℚ → ℚ → ℚ → ℕ → ℚ
  phone : ℕ → String
  company : ℕ → String
  streetAddress : ℕ → String
  userName : ℕ → String
  password : ℚ → Bool → ℕ → String
  alphaChar : String → ℕ → ℕ → String
  digitChar : ℕ → ℕ → String
  hours : ℤ
  month : ℤ
  nowMs : ℚ
  sinq : ℚ → ℚ
  piq : ℚ
  toFixed : ℚ → ℚ → String
  parseDate : String → ℚ

/-- One catalog entry (`GeneratorConfig` in `lib/generators/types.ts`).
The asynchronous `generate` function is modelled as a total function into
`Except String`; the environment is captured when the catalog is built. -/
structure GeneratorConfig where
  name : String
  description : String
  category : String
  compatibleTypes : List String
  generate : ℕ → GeneratorOptions → Except String (List Value)

/-- `Array.from({length: count}, f)`. -/
def arrayFrom (count : ℕ) (f : ℕ → Value) : List Value :=
  (List.range count).map f

/-- JavaScript `"x".padStart(len, "0")`. -/
def padStartZero (s : String) (len : ℕ) : String :=
  if len ≤ s.length then s
  else String.mk (List.replicate (len - s.length) '0') ++ s

/-- JavaScript truthiness of an optional string (`undefined` and `""` are
falsy). -/
def truthyStr : Option String → Option String
  | none => none
  | some s => if s = "" then none else some s

namespace Catalog

def uuidGenerator (env : GenEnv) : GeneratorConfig where
  name := "UUID"
  description := "Generates RFC4122 version 4 UUIDs"
  category := "id"
  compatibleTypes := ["CHAR", "VARCHAR", "VARCHAR2", "TEXT", "STRING",
    "UUID", "UNIQUEIDENTIFIER", "CHARACTER VARYING"]
  generate := fun count _ => .ok (arrayFrom count (fun i => .str (env.uuid i)))

def firstNameGenerator (env : GenEnv) : GeneratorConfig where
  name := "First Name"
  description := "Generates realistic first names with optional gender filter"
  category := "name"
  compatibleTypes := ["CHAR", "VARCHAR", "VARCHAR2", "TEXT", "STRING",
    "NCHAR", "NVARCHAR", "NVARCHAR2", "NTEXT", "CHARACTER VARYING"]
  generate := fun count opts =>
    let gender := opts.gender
    let casing := opts.casing.getD "mixed"
    .ok (arrayFrom count (fun i =>
      let name := match truthyStr gender with
        | some g => env.firstNameG g i
        | none => env.firstName i
      if casing = "upper" then .str (jsUpper name)
      else if casing = "lower" then .str (jsLower name)
      else .str name))

def lastNameGenerator (env : GenEnv) : GeneratorConfig where
  name := "Last Name"
  description := "Generates realistic last names"
  category := "name"
  compatibleTypes := ["CHAR", "VARCHAR", "VARCHAR2", "TEXT", "STRING",
    "NCHAR", "NVARCHAR", "NVARCHAR2", "NTEXT", "CHARACTER VARYING"]
  generate := fun count _ => .ok (arrayFrom count (fun i => .str (env.lastName i)))

def emailGenerator (env : GenEnv) : GeneratorConfig where
  name := "Email"
  description := "Generates realistic email addresses"
  category := "text"
  compatibleTypes := ["VARCHAR", "VARCHAR2", "TEXT", "NVARCHAR", "NVARCHAR2",
    "CHARACTER VARYING", "STRING"]
  generate := fun count _ => .ok (arrayFrom count (fun i => .str (env.email i)))

def timestampGenerator (env : GenEnv) : GeneratorConfig where
  name := "Timestamp"
  description := "Generates timestamps within a configurable date range"
  category := "date"
  compatibleTypes := ["TIMESTAMP", "DATETIME", "DATETIME2",
    "TIMESTAMP WITH TIME ZONE", "TIMESTAMP WITH LOCAL TIME ZONE"]
  generate := fun count opts =>
    let minDate := opts.minDate.getD (env.nowMs - 365 * 24 * 60 * 60 * 1000)
    let maxDate := opts.maxDate.getD env.nowMs
    .ok (arrayFrom count (fun i => .str (env.isoString (env.dateBetween minDate maxDate i))))

def sequentialNumberGenerator (_env : GenEnv) : GeneratorConfig where
  name := "Sequential Number"
  description := "Generates sequential numbers with configurable start and step"
  category := "number"
  compatibleTypes := ["NUMBER", "INT", "INTEGER", "BIGINT", "DECIMAL", "NUMERIC",
    "NUMBER(10)", "NUMBER(19,4)", "DECIMAL(10,2)"]
  generate := fun count opts =>
    let startAt := opts.startAt.getD 1
    let step := opts.step.getD 1
    let padToLength := opts.padToLength.getD 0
    let pre := opts.textPrefix.getD ""
    let suf := opts.textSuffix.getD ""
    .ok (arrayFrom count (fun i =>
      let num := startAt + (i : ℤ) * step
      let numStr := toString num
      let numStr := if 0 < padToLength then padStartZero numStr padToLength.toNat else numStr
      .str (pre ++ numStr ++ suf)))

def moneyGenerator (env : GenEnv) : GeneratorConfig where
  name := "Money Amount"
  description := "Generates realistic money amounts with configurable range"
  category := "number"
  compatibleTypes := ["NUMBER", "DECIMAL", "NUMERIC", "MONEY",
    "NUMBER(19,4)", "DECIMAL(10,2)", "NUMERIC(19,4)"]
  generate := fun count opts =>
    let minAmount := opts.minAmount.getD 10
    let maxAmount := opts.maxAmount.getD 1000
    let dec := opts.decimalPlaces.getD 2
    .ok (arrayFrom count (fun i => .num (env.price minAmount maxAmount dec i)))

def phoneNumberGenerator (env : GenEnv) : GeneratorConfig where
  name := "Phone Number"
  description := "Generates formatted phone numbers"
  category := "text"
  compatibleTypes := ["VARCHAR", "VARCHAR2", "CHAR", "TEXT",
    "CHARACTER VARYING", "STRING"]
  generate := fun count _ => .ok (arrayFrom count (fun i => .str (env.phone i)))

def companyGenerator (env : GenEnv) : GeneratorConfig where
  name := "Company Name"
  description := "Generates realistic company names"
  category := "text"
  compatibleTypes := ["VARCHAR", "VARCHAR2", "TEXT", "NVARCHAR", "NVARCHAR2",
    "CHARACTER VARYING", "STRING"]
  generate := fun count _ => .ok (arrayFrom count (fun i => .str (env.company i)))

def addressGenerator (env : GenEnv) : GeneratorConfig where
  name := "Street Address"
  description := "Generates realistic street addresses"
  category := "text"
  compatibleTypes := ["VARCHAR", "VARCHAR2", "TEXT", "NVARCHAR", "NVARCHAR2",
    "CHARACTER VARYING", "STRING"]
  generate := fun count _ => .ok (arrayFrom count (fun i => .str (env.streetAddress i)))

def usernameGenerator (env : GenEnv) : GeneratorConfig where
  name := "Username"
  description := "Generates usernames based on name patterns"
  category := "text"
  compatibleTypes := ["VARCHAR", "VARCHAR2", "TEXT", "NVARCHAR", "NVARCHAR2",
    "CHARACTER VARYING", "STRING"]
  generate := fun count _ => .ok (arrayFrom count (fun i => .str (env.userName i)))

def passwordGenerator (env : GenEnv) : GeneratorConfig where
  name := "Password"
  description := "Generates secure passwords with configurable length and memorability"
  category := "text"
  compatibleTypes := ["VARCHAR", "VARCHAR2", "TEXT", "NVARCHAR", "NVARCHAR2",
    "CHARACTER VARYING", "STRING"]
  generate := fun count opts =>
    let len := opts.passwordLength.getD 12
    let mem := opts.passwordMemorability.getD true
    .ok (arrayFrom count (fun i => .str (env.password len mem i)))

/-- `format.replace(/c/g, cb)` where the callback draws a fresh value per
occurrence: each occurrence `k` of `target` is replaced by `f k`. -/
def replaceOcc (target : Char) (f : ℕ → String) : List Char → ℕ → String
  | [], _ => ""
  | c :: cs, k =>
    if c = target then f k ++ replaceOcc target f cs (k + 1)
    else String.singleton c ++ replaceOcc target f cs k

def productCodeGenerator (env : GenEnv) : GeneratorConfig where
  name := "Product Code"
  description := "Generates product codes with configurable format"
  category := "text"
  compatibleTypes := ["VARCHAR", "VARCHAR2", "TEXT", "NVARCHAR", "NVARCHAR2",
    "CHARACTER VARYING", "STRING"]
  generate := fun count opts =>
    let format0 := opts.format.getD "AAA-99999"
    let format := if format0 = "" then "AAA-99999" else format0
    let casing := opts.casing.getD "upper"
    let pre := opts.textPrefix.getD ""
    let suf := opts.textSuffix.getD ""
    .ok (arrayFrom count (fun i =>
      let afterA := replaceOcc 'A' (env.alphaChar casing i) format.data 0
      let code := replaceOcc '9' (env.digitChar i) afterA.data 0
      .str (pre ++ code ++ suf)))

def booleanGenerator (env : GenEnv) : GeneratorConfig where
  name := "Boolean"
  description := "Generates true/false values with configurable distribution"
  category := "text"
  compatibleTypes := ["BOOLEAN", "BOOL", "BIT", "NUMBER(1)", "TINYINT",
    "CHAR(1)", "VARCHAR2(1)", "VARCHAR(1)", "CHAR(1 BYTE)", "NUMBER(1,0)"]
  generate := fun count opts =>
    -- source: `Math.random() < (finalOptions.trueWeight || 0.5)`;
    -- JavaScript `||` replaces a falsy merged weight (in particular 0)
    -- with 0.5.
    let merged := opts.trueWeight.getD (1 / 2)
    let effective := if merged = 0 then (1 / 2 : ℚ) else merged
    .ok (arrayFrom count (fun i => .bool (decide (env.rand i < effective))))

def foreignKeyGenerator (env : GenEnv) : GeneratorConfig where
  name := "Foreign Key"
  description := "References values from another column"
  category := "id"
  compatibleTypes := ["NUMBER", "INT", "INTEGER", "BIGINT", "UUID", "VARCHAR",
    "VARCHAR2", "CHAR", "TEXT", "STRING"]
  generate := fun count opts =>
    let rt := opts.referencedTable.getD ""
    let rc := opts.referencedColumn.getD ""
    let rvs := opts.referencedValues.getD []
    if rvs.length = 0 then
      .error ("No referenced values available for foreign key from " ++ rt ++ "." ++ rc)
    else
      .ok (arrayFrom count (fun i =>
        let randomIndex := (⌊env.rand i * (rvs.length : ℚ)⌋).toNat
        (rvs.get? randomIndex).getD .undef))

def humidityGenerator (env : GenEnv) : GeneratorConfig where
  name := "Humidity"
  description := "Generates realistic humidity values with daily and seasonal variations"
  category := "number"
  compatibleTypes := ["NUMBER", "DECIMAL", "NUMERIC", "FLOAT", "DOUBLE",
    "NUMBER(5,2)", "DECIMAL(5,2)", "NUMERIC(5,2)"]
  generate := fun count opts =>
    let minH := opts.minHumidity.getD 30
    let maxH := opts.maxHumidity.getD 70
    let timeVar := opts.includeTimeVariation.getD true
    let seasonVar := opts.includeSeasonalVariation.getD true
    .ok (arrayFrom count (fun i =>
      let base := minH + env.rand i * (maxH - minH)
      let base := if timeVar then
        base + env.sinq (((env.hours : ℚ) - 6) * env.piq / 12) * 10 else base
      let base := if seasonVar then
        base + env.sinq (((env.month : ℚ) - 1) * env.piq / 6) * 5 else base
      .num (max minH (min maxH base))))

def temperatureGenerator (env : GenEnv) : GeneratorConfig where
  name := "Temperature"
  description := "Generates realistic temperature values with daily and seasonal variations"
  category := "number"
  compatibleTypes := ["NUMBER", "DECIMAL", "NUMERIC", "FLOAT", "DOUBLE",
    "NUMBER(5,2)", "DECIMAL(5,2)", "NUMERIC(5,2)"]
  generate := fun count opts =>
    let minT := opts.minTemperature.getD (-10)
    let maxT := opts.maxTemperature.getD 35
    let timeVar := opts.includeTimeVariation.getD true
    let seasonVar := opts.includeSeasonalVariation.getD true
    let useCelsius := opts.useCelsius.getD true
    .ok (arrayFrom count (fun i =>
      let base := minT + env.rand i * (maxT - minT)
      let base := if timeVar then
        base + env.sinq (((env.hours : ℚ) - 14) * env.piq / 12) * 8 else base
      let base := if seasonVar then
        base + env.sinq (((env.month : ℚ) - 6) * env.piq / 6) * 15 else base
      let base := max minT (min maxT base)
      .num (if useCelsius then base else base * 9 / 5 + 32)))

def celsiusStringGenerator (env : GenEnv) : GeneratorConfig where
  name := "Temperature (Celsius String)"
  description := "Generates temperature values as strings with °C suffix"
  category := "text"
  compatibleTypes := ["CHAR", "VARCHAR", "VARCHAR2", "TEXT", "STRING",
    "CHARACTER VARYING"]
  generate := fun count opts =>
    let minT := opts.minTemperature.getD (-10)
    let maxT := opts.maxTemperature.getD 35
    let timeVar := opts.includeTimeVariation.getD true
    let seasonVar := opts.includeSeasonalVariation.getD true
    let dp := opts.decimalPlaces.getD 1
    .ok (arrayFrom count (fun i =>
      let base := minT + env.rand i * (maxT - minT)
      let base := if timeVar then
        base + env.sinq (((env.hours : ℚ) - 14) * env.piq / 12) * 8 else base
      let base := if seasonVar then
        base + env.sinq (((env.month : ℚ) - 6) * env.piq / 6) * 15 else base
      let base := max minT (min maxT base)
      .str (env.toFixed base dp ++ "°C")))

def fahrenheitStringGenerator (env : GenEnv) : GeneratorConfig where
  name := "Temperature (Fahrenheit String)"
  description := "Generates temperature values as strings with °F suffix"
  category := "text"
  compatibleTypes := ["CHAR", "VARCHAR", "VARCHAR2", "TEXT", "STRING",
    "CHARACTER VARYING"]
  generate := fun count opts =>
    let minT := opts.minTemperature.getD 14
    let maxT := opts.maxTemperature.getD 95
    let timeVar := opts.includeTimeVariation.getD true
    let seasonVar := opts.includeSeasonalVariation.getD true
    let dp := opts.decimalPlaces.getD 1
    .ok (arrayFrom count (fun i =>
      let base := minT + env.rand i * (maxT - minT)
      let base := if timeVar then
        base + env.sinq (((env.hours : ℚ) - 14) * env.piq / 12) * (144 / 10) else base
      let base := if seasonVar then
        base + env.sinq (((env.month : ℚ) - 6) * env.piq / 6) * 27 else base
      let base := max minT (min maxT base)
      .str (env.toFixed base dp ++ "°F")))

def timeRangeGenerator (env : GenEnv) : GeneratorConfig where
  name := "Time Range"
  description := "Generates evenly spaced timestamps across a 2-hour window"
  category := "timestamp"
  compatibleTypes := ["TIMESTAMP", "TIMESTAMP WITH TIME ZONE", "DATETIME",
    "TIMESTAMP(6)", "TIMESTAMP(6) WITH TIME ZONE"]
  generate := fun count opts =>
    let windowHours := opts.windowHours.getD 2
    let randomizeStart := opts.randomizeStart.getD true
    let minStr := opts.startTimeRangeMin.getD "2024-01-01T00:00:00Z"
    let maxStr := opts.startTimeRangeMax.getD "2024-12-31T23:59:59Z"
    let windowMs := windowHours * 60 * 60 * 1000
    let startTime :=
      if randomizeStart then
        env.parseDate minStr + env.randStart * (env.parseDate maxStr - env.parseDate minStr)
      else env.parseDate minStr
    -- `(index / (count - 1)) * windowMs`: at `count = 1` the source divides
    -- 0 by 0 (an Invalid Date in JavaScript); rational division by zero
    -- gives 0 here, i.e. the start time.  No claim depends on that value.
    .ok (arrayFrom count (fun index =>
      .date (startTime + ((index : ℚ) / ((count : ℚ) - 1)) * windowMs)))

end Catalog

open Catalog in
/-- The catalog in the registration order of `DataGeneratorRegistry`'s
constructor (`lib/generators/registry.ts`). -/
def registryGenerators (env : GenEnv) : List GeneratorConfig :=
  [uuidGenerator env, firstNameGenerator env, lastNameGenerator env,
   emailGenerator env, timestampGenerator env, sequentialNumberGenerator env,
   moneyGenerator env, phoneNumberGenerator env, companyGenerator env,
   addressGenerator env, usernameGenerator env, passwordGenerator env,
   productCodeGenerator env, booleanGenerator env, foreignKeyGenerator env,
   humidityGenerator env, temperatureGenerator env, celsiusStringGenerator env,
   fahrenheitStringGenerator env, timeRangeGenerator env]

/-- `registry.get(name)`: first generator whose name matches
case-insensitively. -/
def registryGet (env : GenEnv) (name : String) : Option GeneratorConfig :=
  (registryGenerators env).find? (fun g => jsLower g.name = jsLower name)

/-- One compatible-type entry test from `getCompatibleGenerators`:
exact match, base-type match, or entry-base-type match. -/
def typeEntryMatches (normalizedType baseType : String) (entry : String) : Bool :=
  let compatType := jsTrim (jsUpper entry)
  if compatType = normalizedType then true
  else if compatType = baseType then true
  else jsTrim (beforeParen compatType) = baseType

/-- Whether a generator's compatible-type list matches a SQL type string. -/
def typeMatches (g : GeneratorConfig) (sqlType : String) : Bool :=
  let normalizedType := jsTrim (jsUpper sqlType)
  let baseType := jsTrim (beforeParen normalizedType)
  g.compatibleTypes.any (typeEntryMatches normalizedType baseType)

/-- `getCompatibleGenerators` (`lib/generators/registry.ts` lines 64-113):
filter the catalog by `typeMatches`; if nothing matches, return the whole
catalog. -/
def getCompatibleGenerators (env : GenEnv) (sqlType : String) : List GeneratorConfig :=
  let compatibleGens := (registryGenerators env).filter (fun g => typeMatches g sqlType)
  if compatibleGens.isEmpty then registryGenerators env else compatibleGens

/-!
Schema extractor (`processSchema` in `components/SchemaInput.tsx`,
lines 118-177).  The regular expressions of the source are modelled by
deterministic scanners equivalent to the backtracking behaviour of the
JavaScript engine on those patterns (each pattern admits no productive
backtracking, as noted at each definition).
-/

/-- Match a literal pattern (given lowercase) case-insensitively at the
head of the input, returning the remainder. -/
def stripCI : List Char → List Char → Option (List Char)
  | [], cs => some cs
  | _ :: _, [] => none
  | p :: ps, c :: cs => if charLower c = p then stripCI ps cs else none

/-- Match `\s+` (greedy, at least one) at the head of the input. -/
def stripWs1 : List Char → Option (List Char)
  | [] => none
  | c :: cs => if isWsChar c then some (cs.dropWhile isWsChar) else none

/-- Match `create\s+table\s+` (case-insensitive) at the head of the
input. -/
def matchCreateTable (cs : List Char) : Option (List Char) :=
  match stripCI "create".data cs with
  | none => none
  | some r1 =>
    match stripWs1 r1 with
    | none => none
    | some r2 =>
      match stripCI "table".data r2 with
      | none => none
      | some r3 => stripWs1 r3

/-- Worker for the `split(/create\s+table\s+/gi)` of the source; the fuel
argument (initialised to the input length plus one) only bounds the
recursion — every step consumes at least one character, so it is never
exhausted. -/
def splitCTAux : ℕ → List Char → List Char → List (List Char)
  | 0, rest, acc => [acc.reverse ++ rest]
  | fuel + 1, cs, acc =>
    match cs with
    | [] => [acc.reverse]
    | c :: cs' =>
      match matchCreateTable (c :: cs') with
      | some rest => acc.reverse :: splitCTAux fuel rest []
      | none => splitCTAux fuel cs' (c :: acc)

/-- `schemaText.split(/create\s+table\s+/gi)`. -/
def splitCreateTable (cs : List Char) : List (List Char) :=
  splitCTAux (cs.length + 1) cs []

/-- Attempt the pattern `[\[\`"]?(\w+)[\]\`"]?\s*\(` at the head of the
input, returning the captured word.  The pattern is deterministic: the
optional delimiters and the greedy `\w+` admit no productive
backtracking because delimiter, word and whitespace characters are
pairwise disjoint. -/
def tryTableName (cs : List Char) : Option (List Char) :=
  let cs1 := match cs with
    | c :: rest => if c == '[' || c == Char.ofNat 96 || c == '"' then rest else cs
    | [] => cs
  let w := cs1.takeWhile isWordChar
  if w.isEmpty then none
  else
    let r2 := cs1.dropWhile isWordChar
    let r3 := match r2 with
      | c :: rest => if c == ']' || c == Char.ofNat 96 || c == '"' then rest else r2
      | [] => r2
    match r3.dropWhile isWsChar with
    | '(' :: _ => some w
    | _ => none

/-- Leftmost match of the table-name pattern
(`tableDefinition.match(/[\[\`"]?(\w+)[\]\`"]?\s*\(/i)`). -/
def findTableName : List Char → Option String
  | [] => none
  | c :: cs =>
    match tryTableName (c :: cs) with
    | some w => some (String.mk w)
    | none => findTableName cs

/-- Last index of a character satisfying `p` (JavaScript
`lastIndexOf`). -/
def lastIdxOf (cs : List Char) (p : Char → Bool) : Option ℕ :=
  match cs.reverse.findIdx? p with
  | some i => some (cs.length - 1 - i)
  | none => none

/-- `tableDefinition.slice(tableDefinition.indexOf('(') + 1,
tableDefinition.lastIndexOf(')'))`, with JavaScript's `-1` sentinels:
a missing `(` gives start `0`, a missing `)` gives end `length - 1`. -/
def bodyOf (cs : List Char) : List Char :=
  let start := match cs.findIdx? (· == '(') with
    | some i => i + 1
    | none => 0
  let stop := match lastIdxOf cs (· == ')') with
    | some k => k
    | none => cs.length - 1
  (cs.drop start).take (stop - start)

/-- The fragment filter of `processSchema`: drop constraint-like lines
and empty lines. -/
def keepFragment (line : String) : Bool :=
  let t := jsUpper (jsTrim line)
  !(jsStartsWith t "CONSTRAINT" || jsStartsWith t "PRIMARY KEY" ||
    jsStartsWith t "FOREIGN KEY" || jsStartsWith t "INDEX" || t == "")

/-- Remove the delimiter characters `[`, `]`, `"` and backtick
(`replace(/[\[\]"`]/g, '')`). -/
def removeBrackets (s : String) : String :=
  String.mk (s.data.filter (fun c =>
    !(c == '[' || c == ']' || c == '"' || c == Char.ofNat 96)))

/-- The column pattern `/^(\w+)\s+([^\s]+(?:\([^\)]+\))?)\s*(.*)$/i`:
word, whitespace, maximal non-whitespace run (the optional parenthesised
alternative inside group 2 never fires, since the greedy `[^\s]+`
already absorbs parentheses), optional whitespace, then a remainder that
must contain no line terminator (`.` does not match them and `$` is
end-of-string).  Returns (column name, type token, remainder). -/
def parseColDef (s : String) : Option (String × String × String) :=
  let cs := s.data
  let w := cs.takeWhile isWordChar
  if w.isEmpty then none
  else
    let r1 := cs.dropWhile isWordChar
    if (r1.takeWhile isWsChar).isEmpty then none
    else
      let r2 := r1.dropWhile isWsChar
      let typ := r2.takeWhile (fun c => !isWsChar c)
      if typ.isEmpty then none
      else
        let r3 := r2.dropWhile (fun c => !isWsChar c)
        let rest := r3.dropWhile isWsChar
        if rest.any (fun c => c == '\n' || c == '\r') then none
        else some (String.mk w, String.mk typ, String.mk rest)

/-- Attempt `default\s+([^,\s]+)` (case-insensitive) at the head of the
input, returning the captured token. -/
def tryDefault (cs : List Char) : Option (List Char) :=
  match stripCI "default".data cs with
  | none => none
  | some r1 =>
    match stripWs1 r1 with
    | none => none
    | some r2 =>
      let cap := r2.takeWhile (fun c => !isWsChar c && !(c == ','))
      if cap.isEmpty then none else some cap

/-- Leftmost match of `rest.match(/default\s+([^,\s]+)/i)`. -/
def findDefault : List Char → Option (List Char)
  | [] => none
  | c :: cs =>
    match tryDefault (c :: cs) with
    | some cap => some cap
    | none => findDefault cs

/-- Remove quote characters from a captured default value
(`replace(/['"`]/g, '')`). -/
def stripQuoteChars (cs : List Char) : String :=
  String.mk (cs.filter (fun c =>
    !(c == Char.ofNat 39 || c == '"' || c == Char.ofNat 96)))

/-- One inferred column (`SchemaColumn` in the source pages).  The
extractor initialises `generator` to the empty string; the UI later
assigns a catalog name and, for foreign keys, the reference fields. -/
structure SchemaColumn where
  tableName : String
  columnName : String
  dataType : String
  defaultValue : Option String
  generator : Option String := none
  referencedTable : Option String := none
  referencedColumn : Option String := none
deriving DecidableEq, Repr

/-- `processSchema` (`components/SchemaInput.tsx` lines 118-177): split
on `CREATE TABLE`, extract a table name and a parenthesised body per
chunk, split the body on bare commas, drop constraint-like fragments,
and parse each remaining fragment into a column descriptor. -/
def extractSchema (text : String) : List SchemaColumn :=
  let chunks := (splitCreateTable text.data).drop 1
  chunks.foldl (fun acc chunk =>
    match findTableName chunk with
    | none => acc
    | some tn =>
      let tableName := removeBrackets tn
      let body := String.mk (bodyOf chunk)
      let frags := (jsSplitChar (Char.ofNat 44) body).filter keepFragment
      frags.foldl (fun acc2 frag =>
        let clean := removeBrackets (jsTrim frag)
        match parseColDef clean with
        | none => acc2
        | some (cn, dt, rest) =>
          let dv := (findDefault rest.data).map stripQuoteChars
          acc2 ++ [{ tableName := tableName, columnName := cn,
                     dataType := jsTrim (jsUpper dt), defaultValue := dv,
                     generator := some "" }]) acc) []

/-!
Generation executor (`handleConfirmGenerate` in `generate/page.tsx`,
lines 134-208): phase 1 generates every non-foreign-key column of every
table and records the realized sequences in a candidate-key index;
phase 2 fills every foreign-key column by drawing, per row, a random
element of its referenced column's realized sequence.
-/

/-- One output row: a slot per column, `none` for a slot never written
(JavaScript `null` from the `Array(...).fill(null)` initialisation). -/
abbrev Row := List (Option Value)

/-- Per-table output (`{ columns: string[]; rows: any[][] }`). -/
structure TableData where
  columns : List String
  rows : List Row
deriving DecidableEq, Repr

/-- The candidate-key index `candidateKeyValues`, keyed by
`tableName.columnName`. -/
abbrev CKV := List (String × List Value)

/-- Lookup in the candidate-key index (JavaScript object read). -/
def lookupCKV (ckv : CKV) (k : String) : Option (List Value) :=
  (ckv.find? (fun p => p.1 = k)).map (fun p => p.2)

/-- Assignment `candidateKeyValues[key] = values` (JavaScript object
write: replace an existing key, else append). -/
def ckvSet (ckv : CKV) (k : String) (v : List Value) : CKV :=
  if ckv.any (fun p => p.1 = k) then
    ckv.map (fun p => if p.1 = k then (k, v) else p)
  else ckv ++ [(k, v)]

/-- First-occurrence deduplication
(`Array.from(new Set(...))`, insertion order). -/
def firstDedupAux (seen : List String) : List String → List String
  | [] => []
  | a :: l =>
    if a ∈ seen then firstDedupAux seen l
    else a :: firstDedupAux (a :: seen) l

/-- `getUniqueTables`: table names in first-appearance order. -/
def uniqueTables (columns : List SchemaColumn) : List String :=
  firstDedupAux [] (columns.map (fun c => c.tableName))

/-- Row-count resolution `tableRowCounts[table.name] || rowCount`
(a missing or zero override falls back to the default). -/
def rowsFor (overrides : List (String × ℕ)) (defaultRows : ℕ) (t : String) : ℕ :=
  match (overrides.find? (fun p => p.1 = t)).map (fun p => p.2) with
  | some n => if n = 0 then defaultRows else n
  | none => defaultRows

/-- Whether phase 1 generates a column:
`if (!column.generator || column.generator === 'Foreign Key') continue`. -/
def isAssignedNonFK (c : SchemaColumn) : Bool :=
  match c.generator with
  | none => false
  | some s => !(s == "") && !(s == "Foreign Key")

/-- `values.forEach((value, rowIndex) => rows[rowIndex][colIndex] = value)`:
write a generated sequence down column `j`.  Phase 1 always passes a
sequence of exactly `rows.length` values (the generator contract), so the
two truncating cases are never reached in an execution. -/
def writeColumn (j : ℕ) : List Row → List Value → List Row
  | rows, [] => rows
  | [], _ :: _ => []
  | row :: rest, v :: vs => row.set j (some v) :: writeColumn j rest vs

/-- Phase 1 over one table's columns, carrying the enumeration index
(`for (const [colIndex, column] of tableColumns.entries())`). -/
def phase1Cols (env : GenEnv) : List SchemaColumn → ℕ → ℕ → List Row → CKV →
    Except String (List Row × CKV)
  | [], _, _, rows, ckv => .ok (rows, ckv)
  | c :: cs, j, n, rows, ckv =>
    if isAssignedNonFK c then
      match registryGet env (c.generator.getD "") with
      | none => phase1Cols env cs (j + 1) n rows ckv
      | some g =>
        match g.generate n {} with
        | .error e => .error e
        | .ok vs =>
          phase1Cols env cs (j + 1) n (writeColumn j rows vs)
            (ckvSet ckv (c.tableName ++ "." ++ c.columnName) vs)
    else phase1Cols env cs (j + 1) n rows ckv

/-- Phase 1 over the table list: pre-shape each table's output as
`rowsToGenerate` rows of `tableColumns.length` null slots, then run
`phase1Cols`. -/
def phase1Tables (env : GenEnv) (columns : List SchemaColumn)
    (defaultRows : ℕ) (overrides : List (String × ℕ)) :
    List String → List (String × TableData) → CKV →
    Except String (List (String × TableData) × CKV)
  | [], acc, ckv => .ok (acc, ckv)
  | t :: ts, acc, ckv =>
    let tcols := columns.filter (fun c => c.tableName = t)
    let n := rowsFor overrides defaultRows t
    let rows0 : List Row := List.replicate n (List.replicate tcols.length none)
    match phase1Cols env tcols 0 n rows0 ckv with
    | .error e => .error e
    | .ok res =>
      phase1Tables env columns defaultRows overrides ts
        (acc ++ [(t, ⟨tcols.map (fun c => c.columnName), res.1⟩)]) res.2

/-- Whether phase 2 fills a column:
`if (column.generator !== 'Foreign Key' || !column.referencedTable ||
!column.referencedColumn) continue`. -/
def isFKWithRefs (c : SchemaColumn) : Bool :=
  c.generator == some "Foreign Key" &&
  (truthyStr c.referencedTable).isSome && (truthyStr c.referencedColumn).isSome

/-- The executor's phase-2 error message. -/
def fkErrMsg (rt rc : String) : String :=
  "No referenced values available for foreign key from " ++ rt ++ "." ++ rc

/-- One phase-2 draw:
`referencedValues[Math.floor(Math.random() * referencedValues.length)]`
for row `r` of column `j` of table `t` (an out-of-range index would be
JavaScript `undefined`). -/
def fkDraw (env : GenEnv) (t : String) (j r : ℕ) (rvs : List Value) : Value :=
  ((rvs.get? (⌊env.rand2 t j r * (rvs.length : ℚ)⌋).toNat).getD .undef)

/-- `rows.forEach((row, rowIndex) => row[colIndex] = ...)`: fill column
`j` of every row with an independent draw. -/
def fkWriteAux (env : GenEnv) (t : String) (j : ℕ) (rvs : List Value) :
    ℕ → List Row → List Row
  | _, [] => []
  | r, row :: rest =>
    row.set j (some (fkDraw env t j r rvs)) :: fkWriteAux env t j rvs (r + 1) rest

/-- Phase 2 over one table's columns, carrying the enumeration index. -/
def phase2Cols (env : GenEnv) (t : String) (ckv : CKV) :
    List SchemaColumn → ℕ → List Row → Except String (List Row)
  | [], _, rows => .ok rows
  | c :: cs, j, rows =>
    if isFKWithRefs c then
      let rt := c.referencedTable.getD ""
      let rc := c.referencedColumn.getD ""
      match lookupCKV ckv (rt ++ "." ++ rc) with
      | none => .error (fkErrMsg rt rc)
      | some rvs =>
        if rvs.length = 0 then .error (fkErrMsg rt rc)
        else phase2Cols env t ckv cs (j + 1) (fkWriteAux env t j rvs 0 rows)
    else phase2Cols env t ckv cs (j + 1) rows

/-- Phase 2 over the phase-1 output. -/
def phase2Tables (env : GenEnv) (columns : List SchemaColumn) (ckv : CKV) :
    List (String × TableData) → Except String (List (String × TableData))
  | [] => .ok []
  | (t, td) :: rest =>
    match phase2Cols env t ckv (columns.filter (fun c => c.tableName = t)) 0 td.rows with
    | .error e => .error e
    | .ok rows' =>
      match phase2Tables env columns ckv rest with
      | .error e => .error e
      | .ok out => .ok ((t, ⟨td.columns, rows'⟩) :: out)

/-- The whole of `handleConfirmGenerate`'s generation work: phase 1 for
every table, then phase 2; any thrown error aborts the run (the source's
surrounding `try`/`catch` stores no dataset on error). -/
def executeGeneration (env : GenEnv) (columns : List SchemaColumn)
    (defaultRows : ℕ) (overrides : List (String × ℕ)) :
    Except String (List (String × TableData)) :=
  match phase1Tables env columns defaultRows overrides (uniqueTables columns) [] [] with
  | .error e => .error e
  | .ok res => phase2Tables env columns res.2 res.1

/-- The candidate-key index realized by phase 1 (the executor's
`candidateKeyValues` after the first pass), exposed for the statement of
the foreign-key consistency invariant. -/
def phase1CKV (env : GenEnv) (columns : List SchemaColumn)
    (defaultRows : ℕ) (overrides : List (String × ℕ)) : Option CKV :=
  match phase1Tables env columns defaultRows overrides (uniqueTables columns) [] [] with
  | .error _ => none
  | .ok res => some res.2

/-- Validity of the random streams: every `Math.random()` sample lies in
`[0, 1)`. -/
def EnvValid (env : GenEnv) : Prop :=
  (∀ i, 0 ≤ env.rand i ∧ env.rand i < 1) ∧
  (∀ t j r, 0 ≤ env.rand2 t j r ∧ env.rand2 t j r < 1)

/-!
A concrete environment, used to instantiate the theorems below on
closed inputs.
-/

/-- A concrete environment: both random streams are constantly `1/2`
(a legal `Math.random()` value) and every faker draw is a fixed
string. -/
def constEnv : GenEnv where
  rand := fun _ => 1 / 2
  rand2 := fun _ _ _ => 1 / 2
  randStart := 0
  uuid := fun _ => "u"
  firstName := fun _ => "f"
  firstNameG := fun _ _ => "g"
  lastName := fun _ => "l"
  email := fun _ => "e"
  dateBetween := fun _ _ _ => 0
  isoString := fun _ => "d"
  price := fun _ _ _ _ => 0
  phone := fun _ => "p"
  company := fun _ => "c"
  streetAddress := fun _ => "a"
  userName := fun _ => "un"
  password := fun _ _ _ => "pw"
  alphaChar := fun _ _ _ => "A"
  digitChar := fun _ _ => "9"
  hours := 0
  month := 0
  nowMs := 0
  sinq := fun _ => 0
  piq := 0
  toFixed := fun _ _ => "t"
  parseDate := fun _ => 0

/-- A variant whose element stream is constantly `1/4`. -/
def quarterEnv : GenEnv := { constEnv with rand := fun _ => 1 / 4 }

/-- Appending the empty string on the right is the identity. -/
theorem str_append_empty (s : String) : s ++ "" = s := by
  cases s with
  | mk data => show String.mk (data ++ []) = String.mk data
               rw [List.append_nil]

/-- The random pick `rvs[Math.floor(q * rvs.length)]` of the foreign-key
generator lands inside `rvs` whenever `q ∈ [0, 1)` and `rvs` is
non-empty. -/
theorem fk_pick_mem (rvs : List Value) (h : rvs ≠ []) (q : ℚ)
    (h0 : 0 ≤ q) (h1 : q < 1) :
    ((rvs.get? (⌊q * (rvs.length : ℚ)⌋).toNat).getD .undef) ∈ rvs := by
  have hlen : 0 < rvs.length := List.length_pos.2 h
  have hlenq : (0 : ℚ) < (rvs.length : ℚ) := by exact_mod_cast hlen
  have hq0 : (0 : ℚ) ≤ q * rvs.length := mul_nonneg h0 (le_of_lt hlenq)
  have hlt : q * (rvs.length : ℚ) < (rvs.length : ℚ) := by
    have := mul_lt_mul_of_pos_right h1 hlenq
    simpa using this
  have hfl : ⌊q * (rvs.length : ℚ)⌋ < (rvs.length : ℤ) :=
    Int.floor_lt.2 (by exact_mod_cast hlt)
  have hfl0 : 0 ≤ ⌊q * (rvs.length : ℚ)⌋ := Int.floor_nonneg.2 hq0
  have hidx : (⌊q * (rvs.length : ℚ)⌋).toNat < rvs.length := by omega
  rw [List.get?_eq_get hidx, Option.getD_some]
  exact List.get_mem rvs _ hidx

/-- C8: the Sequential Number generator with `count = 5` and
`{startAt: 3, step: 2}` yields exactly the unpadded, unaffixed strings
`["3","5","7","9","11"]`; in general it emits
`start, start + step, start + 2·step, …` as plain decimal strings. -/
theorem sequentialNumber_exact (env : GenEnv) :
    ((Catalog.sequentialNumberGenerator env).generate 5
        { startAt := some 3, step := some 2 } =
      .ok [.str "3", .str "5", .str "7", .str "9", .str "11"]) ∧
    (∀ (n : ℕ) (s st : ℤ),
      (Catalog.sequentialNumberGenerator env).generate n
          { startAt := some s, step := some st } =
        .ok ((List.range n).map (fun (i : ℕ) => .str (toString (s + (i : ℤ) * st))))) := by
  refine ⟨rfl, fun n s st => ?_⟩
  simp only [Catalog.sequentialNumberGenerator, arrayFrom]
  refine congrArg Except.ok (List.map_congr_left fun i _ => ?_)
  simp only [Option.getD_some, Option.getD_none]
  rw [if_neg (by decide)]
  rw [str_append_empty]
  rfl

/-- C8 witness: the first clause of `sequentialNumber_exact` at the
concrete environment. -/
theorem sequentialNumber_exact_witness :
    (Catalog.sequentialNumberGenerator constEnv).generate 5
        { startAt := some 3, step := some 2 } =
      .ok [.str "3", .str "5", .str "7", .str "9", .str "11"] :=
  (sequentialNumber_exact constEnv).1

/-- C9: every catalog generator returns exactly `count` values (an empty
sequence for `count = 0`) and never fails, for every option record,
except the Foreign Key generator, which fails exactly when its merged
`referencedValues` list is empty. -/
theorem generate_totality (env : GenEnv) (g : GeneratorConfig)
    (hg : g ∈ registryGenerators env) (count : ℕ) (opts : GeneratorOptions) :
    (∃ vs, g.generate count opts = .ok vs ∧ vs.length = count) ∨
    (g.name = "Foreign Key" ∧ opts.referencedValues.getD [] = []) := by
  have hlen : ∀ f : ℕ → Value, (arrayFrom count f).length = count := by
    intro f; simp [arrayFrom]
  simp only [registryGenerators, List.mem_cons, List.not_mem_nil, or_false] at hg
  rcases hg with rfl | rfl | rfl | rfl | rfl | rfl | rfl | rfl | rfl | rfl | rfl |
    rfl | rfl | rfl | rfl | rfl | rfl | rfl | rfl | rfl
  all_goals try exact Or.inl ⟨_, rfl, hlen _⟩
  -- the one remaining case: the Foreign Key generator
  by_cases h : opts.referencedValues.getD [] = []
  · exact Or.inr ⟨rfl, h⟩
  · refine Or.inl ⟨arrayFrom count (fun i =>
      ((opts.referencedValues.getD []).get?
        (⌊env.rand i * ((opts.referencedValues.getD []).length : ℚ)⌋).toNat).getD .undef),
      ?_, hlen _⟩
    simp only [Catalog.foreignKeyGenerator]
    rw [if_neg (by simpa [List.length_eq_zero] using h)]

/-- C9 witness: the UUID generator at the concrete environment with
`count = 3`. -/
theorem generate_totality_witness :
    (∃ vs, (Catalog.uuidGenerator constEnv).generate 3 {} = .ok vs ∧ vs.length = 3) ∨
    ((Catalog.uuidGenerator constEnv).name = "Foreign Key" ∧
      ({} : GeneratorOptions).referencedValues.getD [] = []) :=
  generate_totality constEnv (Catalog.uuidGenerator constEnv)
    (by simp [registryGenerators]) 3 {}

/-- C3: the foreign-key generator at `count = 5` fails with the
referential "No referenced values available" error when
`referencedValues` is absent or empty, and with
`referencedValues = ['a','b']` returns exactly 5 values, each drawn
independently (per element `i`, from sample `rand i`) with replacement
from the list, so each is a member of `{'a','b'}`. -/
theorem foreignKey_contract (env : GenEnv)
    (hr : ∀ i, 0 ≤ env.rand i ∧ env.rand i < 1) :
    ((Catalog.foreignKeyGenerator env).generate 5 {} =
      .error "No referenced values available for foreign key from .") ∧
    ((Catalog.foreignKeyGenerator env).generate 5 { referencedValues := some [] } =
      .error "No referenced values available for foreign key from .") ∧
    (∃ vs, (Catalog.foreignKeyGenerator env).generate 5
        { referencedValues := some [.str "a", .str "b"] } = .ok vs ∧
      vs.length = 5 ∧
      vs = (List.range 5).map (fun i =>
        (([Value.str "a", .str "b"].get? (⌊env.rand i * 2⌋).toNat).getD .undef)) ∧
      ∀ v ∈ vs, v = .str "a" ∨ v = .str "b") := by
  refine ⟨rfl, rfl, _, rfl, by simp [arrayFrom], by simp [arrayFrom], ?_⟩
  intro v hv
  simp only [Catalog.foreignKeyGenerator, Option.getD_some, arrayFrom,
    List.mem_map] at hv
  obtain ⟨i, _, rfl⟩ := hv
  have hmem := fk_pick_mem [Value.str "a", .str "b"] (by simp)
    (env.rand i) (hr i).1 (hr i).2
  simpa using hmem

/-- C3 witness: the contract at the concrete environment (both samples
are `1/2`, so every drawn value is `'b'`). -/
theorem foreignKey_contract_witness :
    (∀ i, 0 ≤ constEnv.rand i ∧ constEnv.rand i < 1) ∧
    (((Catalog.foreignKeyGenerator constEnv).generate 5 {} =
      .error "No referenced values available for foreign key from .") ∧
    ((Catalog.foreignKeyGenerator constEnv).generate 5 { referencedValues := some [] } =
      .error "No referenced values available for foreign key from .") ∧
    (∃ vs, (Catalog.foreignKeyGenerator constEnv).generate 5
        { referencedValues := some [.str "a", .str "b"] } = .ok vs ∧
      vs.length = 5 ∧
      vs = (List.range 5).map (fun i =>
        (([Value.str "a", .str "b"].get? (⌊constEnv.rand i * 2⌋).toNat).getD .undef)) ∧
      ∀ v ∈ vs, v = .str "a" ∨ v = .str "b")) :=
  have hr : ∀ i, 0 ≤ constEnv.rand i ∧ constEnv.rand i < 1 :=
    fun _ => ⟨by norm_num [constEnv], by norm_num [constEnv]⟩
  ⟨hr, foreignKey_contract constEnv hr⟩

/-- C5, evaluation at the failing input: with `trueWeight = 0` and every
`Math.random()` sample equal to `1/4`, the Boolean generator emits
`true` values — the source's `finalOptions.trueWeight || 0.5` treats the
weight 0 as absent and compares against `0.5`, contradicting the
documented "probability of `true`" semantics of the option. -/
theorem boolean_trueWeight_zero_yields_true :
    (Catalog.booleanGenerator quarterEnv).generate 3 { trueWeight := some 0 } =
      .ok [.bool true, .bool true, .bool true] := by decide

/-- C6: for a type string matched by no generator's compatible-type list
(under the exact / base-type / entry-base-type rules), the matcher falls
back to the entire catalog: the result is the full catalog, has the
catalog's length, and is never empty. -/
theorem getCompatibleGenerators_fallback (env : GenEnv) (x : String)
    (h : ∀ g ∈ registryGenerators env, typeMatches g x = false) :
    getCompatibleGenerators env x = registryGenerators env ∧
    (getCompatibleGenerators env x).length = (registryGenerators env).length ∧
    getCompatibleGenerators env x ≠ [] := by
  have hfil : (registryGenerators env).filter (fun g => typeMatches g x) = [] := by
    rw [List.filter_eq_nil_iff]
    intro g hg
    simp [h g hg]
  have hres : getCompatibleGenerators env x = registryGenerators env := by
    simp [getCompatibleGenerators, hfil]
  refine ⟨hres, by rw [hres], by rw [hres]; simp [registryGenerators]⟩

/-- C6 witness: no generator is compatible with the type string `"XYZ"`,
so the matcher returns the whole 20-entry catalog. -/
theorem getCompatibleGenerators_fallback_witness :
    getCompatibleGenerators constEnv "XYZ" = registryGenerators constEnv ∧
    (getCompatibleGenerators constEnv "XYZ").length =
      (registryGenerators constEnv).length ∧
    getCompatibleGenerators constEnv "XYZ" ≠ [] :=
  getCompatibleGenerators_fallback constEnv "XYZ" (by decide)

/-- C7: round-trip type matching — every catalog generator is returned
by the matcher when queried with any entry of its own compatible-type
list (the entry matches itself under the exact-match rule, so the
generator passes the filter and the non-empty filtered list is
returned). -/
theorem getCompatibleGenerators_roundTrip (env : GenEnv) (g : GeneratorConfig)
    (t : String) (hg : g ∈ registryGenerators env) (ht : t ∈ g.compatibleTypes) :
    g ∈ getCompatibleGenerators env t := by
  have hmatch : typeMatches g t = true := by
    unfold typeMatches
    refine List.any_eq_true.2 ⟨t, ht, ?_⟩
    unfold typeEntryMatches
    simp
  have hfil : g ∈ (registryGenerators env).filter (fun g => typeMatches g t) :=
    List.mem_filter.2 ⟨hg, hmatch⟩
  unfold getCompatibleGenerators
  by_cases hemp : ((registryGenerators env).filter (fun g => typeMatches g t)).isEmpty
  · rw [List.isEmpty_iff] at hemp
    rw [hemp] at hfil
    exact absurd hfil (List.not_mem_nil g)
  · simp only [hemp, if_false]
    exact hfil

/-- C7 witness: the UUID generator is returned for its own entry
`"CHAR"`. -/
theorem getCompatibleGenerators_roundTrip_witness :
    Catalog.uuidGenerator constEnv ∈ getCompatibleGenerators constEnv "CHAR" :=
  getCompatibleGenerators_roundTrip constEnv (Catalog.uuidGenerator constEnv)
    "CHAR" (by simp [registryGenerators]) (by decide)

/-- C2, counterexample: on
`CREATE TABLE t (price DECIMAL(10,2), name VARCHAR(50));` the extractor
does **not** yield `price : DECIMAL(10,2)` and `name : VARCHAR(50)` —
the body is split on every comma with no parenthesis awareness. -/
theorem commaSplit_claim_false :
    ¬ ((extractSchema "CREATE TABLE t (price DECIMAL(10,2), name VARCHAR(50));").map
        (fun c => (c.tableName, c.columnName, c.dataType)) =
      [("t", "price", "DECIMAL(10,2)"), ("t", "name", "VARCHAR(50)")]) := by decide

/-- C2, amended: the extractor splits the body on every comma, including
those inside `DECIMAL(10,2)`.  On this input it still produces exactly
two descriptors — the stray fragment `2)` fails the column pattern and
is silently dropped — but `price`'s dataType is the truncated
`DECIMAL(10)` prefix `"DECIMAL(10"`, while `name` is parsed correctly as
`VARCHAR(50)`. -/
theorem commaSplit_actual :
    (extractSchema "CREATE TABLE t (price DECIMAL(10,2), name VARCHAR(50));").map
      (fun c => (c.tableName, c.columnName, c.dataType, c.defaultValue)) =
    [("t", "price", "DECIMAL(10", none), ("t", "name", "VARCHAR(50)", none)] := by decide

/-!
Executor invariants: each phase writes only the column index it is
processing, preserves the rows-by-columns shape, and phase 2 fills a
foreign-key column exclusively with draws from the candidate-key list
realized in phase 1.
-/

/-- The cell of row `r`, column `k` of an output buffer. -/
def cellAt (rows : List Row) (r k : ℕ) : Option (Option Value) :=
  (rows.get? r).bind (fun row => row.get? k)

theorem writeColumn_get? (j : ℕ) (rows : List Row) (vs : List Value) (r : ℕ) :
    (writeColumn j rows vs).get? r =
      match vs.get? r with
      | some v => (rows.get? r).map (fun row => row.set j (some v))
      | none => rows.get? r := by
  induction rows generalizing vs r with
  | nil =>
    cases vs <;> cases r <;> simp [writeColumn] <;> (try split) <;> rfl
  | cons row rest ih =>
    cases vs with
    | nil => cases r <;> simp [writeColumn]
    | cons v vs' =>
      cases r with
      | zero => simp [writeColumn]
      | succ r' => simpa [writeColumn] using ih vs' r'

theorem writeColumn_length (j : ℕ) (rows : List Row) (vs : List Value) :
    (writeColumn j rows vs).length = rows.length := by
  induction rows generalizing vs with
  | nil => cases vs <;> simp [writeColumn]
  | cons row rest ih =>
    cases vs with
    | nil => simp [writeColumn]
    | cons v vs' => simp [writeColumn, ih]

theorem writeColumn_rowlen (j : ℕ) (rows : List Row) (vs : List Value) (r : ℕ) :
    ((writeColumn j rows vs).get? r).map List.length =
      (rows.get? r).map List.length := by
  rw [writeColumn_get?]
  cases h : vs.get? r with
  | none => rfl
  | some v =>
    cases rows.get? r with
    | none => rfl
    | some row => simp

theorem writeColumn_cell_ne (j : ℕ) (rows : List Row) (vs : List Value)
    (r k : ℕ) (hk : k ≠ j) :
    cellAt (writeColumn j rows vs) r k = cellAt rows r k := by
  unfold cellAt
  rw [writeColumn_get?]
  cases h : vs.get? r with
  | none => rfl
  | some v =>
    cases rows.get? r with
    | none => rfl
    | some row => simp [List.getElem?_set_ne (show j ≠ k from fun h => hk h.symm)]

theorem fkWriteAux_get? (env : GenEnv) (t : String) (j : ℕ) (rvs : List Value)
    (rows : List Row) (r0 r : ℕ) :
    (fkWriteAux env t j rvs r0 rows).get? r =
      (rows.get? r).map (fun row => row.set j (some (fkDraw env t j (r0 + r) rvs))) := by
  induction rows generalizing r0 r with
  | nil => cases r <;> simp [fkWriteAux]
  | cons row rest ih =>
    cases r with
    | zero => simp [fkWriteAux]
    | succ r' =>
      have := ih (r0 + 1) r'
      simpa [fkWriteAux, Nat.add_assoc, Nat.add_comm 1 r'] using this

theorem fkWriteAux_length (env : GenEnv) (t : String) (j : ℕ) (rvs : List Value)
    (rows : List Row) (r0 : ℕ) :
    (fkWriteAux env t j rvs r0 rows).length = rows.length := by
  induction rows generalizing r0 with
  | nil => simp [fkWriteAux]
  | cons row rest ih => simp [fkWriteAux, ih]

theorem fkWriteAux_rowlen (env : GenEnv) (t : String) (j : ℕ) (rvs : List Value)
    (rows : List Row) (r0 r : ℕ) :
    ((fkWriteAux env t j rvs r0 rows).get? r).map List.length =
      (rows.get? r).map List.length := by
  rw [fkWriteAux_get?]
  cases rows.get? r with
  | none => rfl
  | some row => simp

theorem fkWriteAux_cell_ne (env : GenEnv) (t : String) (j : ℕ) (rvs : List Value)
    (rows : List Row) (r0 r k : ℕ) (hk : k ≠ j) :
    cellAt (fkWriteAux env t j rvs r0 rows) r k = cellAt rows r k := by
  unfold cellAt
  rw [fkWriteAux_get?]
  cases rows.get? r with
  | none => rfl
  | some row => simp [List.getElem?_set_ne (show j ≠ k from fun h => hk h.symm)]

theorem phase1Cols_shape (env : GenEnv) (cols : List SchemaColumn)
    (j n : ℕ) (rows : List Row) (ckv : CKV) (rows' : List Row) (ckv' : CKV)
    (hok : phase1Cols env cols j n rows ckv = .ok (rows', ckv')) :
    rows'.length = rows.length ∧
    ∀ r, (rows'.get? r).map List.length = (rows.get? r).map List.length := by
  induction cols generalizing j rows ckv with
  | nil =>
    simp only [phase1Cols] at hok
    cases hok
    exact ⟨rfl, fun _ => rfl⟩
  | cons c cs ih =>
    simp only [phase1Cols] at hok
    split at hok
    · split at hok
      · exact ih _ _ _ hok
      · split at hok
        · cases hok
        · obtain ⟨h1, h2⟩ := ih _ _ _ hok
          refine ⟨by rw [h1, writeColumn_length], fun r => ?_⟩
          rw [h2 r, writeColumn_rowlen]
    · exact ih _ _ _ hok

theorem phase1Cols_cell_skip (env : GenEnv) (cols : List SchemaColumn)
    (j n : ℕ) (rows : List Row) (ckv : CKV) (rows' : List Row) (ckv' : CKV)
    (hok : phase1Cols env cols j n rows ckv = .ok (rows', ckv')) (k : ℕ)
    (hskip : ∀ i c, cols.get? i = some c → j + i = k →
      isAssignedNonFK c = false ∨ registryGet env (c.generator.getD "") = none)
    (r : ℕ) :
    cellAt rows' r k = cellAt rows r k := by
  induction cols generalizing j rows ckv with
  | nil =>
    simp only [phase1Cols] at hok
    cases hok
    rfl
  | cons c cs ih =>
    simp only [phase1Cols] at hok
    have hskip' : ∀ i c', cs.get? i = some c' → (j + 1) + i = k →
        isAssignedNonFK c' = false ∨ registryGet env (c'.generator.getD "") = none := by
      intro i c' hi hk
      exact hskip (i + 1) c' (by simpa using hi) (by omega)
    split at hok
    · rename_i ha
      split at hok
      · exact ih _ _ _ hok hskip'
      · rename_i g hreg
        split at hok
        · cases hok
        · have hjk : j ≠ k := by
            intro hjk
            rcases hskip 0 c (by simp) (by omega) with h | h
            · rw [ha] at h; cases h
            · rw [hreg] at h; cases h
          rw [ih _ _ _ hok hskip', writeColumn_cell_ne _ _ _ _ _ (fun h => hjk h.symm)]
    · exact ih _ _ _ hok hskip'

theorem phase2Cols_shape (env : GenEnv) (t : String) (ckv : CKV)
    (cols : List SchemaColumn) (j : ℕ) (rows rows' : List Row)
    (hok : phase2Cols env t ckv cols j rows = .ok rows') :
    rows'.length = rows.length ∧
    ∀ r, (rows'.get? r).map List.length = (rows.get? r).map List.length := by
  induction cols generalizing j rows with
  | nil =>
    simp only [phase2Cols] at hok
    cases hok
    exact ⟨rfl, fun _ => rfl⟩
  | cons c cs ih =>
    simp only [phase2Cols] at hok
    split at hok
    · split at hok
      · cases hok
      · split at hok
        · cases hok
        · obtain ⟨h1, h2⟩ := ih _ _ hok
          refine ⟨by rw [h1, fkWriteAux_length], fun r => ?_⟩
          rw [h2 r, fkWriteAux_rowlen]
    · exact ih _ _ hok

theorem phase2Cols_cell_skip (env : GenEnv) (t : String) (ckv : CKV)
    (cols : List SchemaColumn) (j : ℕ) (rows rows' : List Row)
    (hok : phase2Cols env t ckv cols j rows = .ok rows') (k : ℕ)
    (hskip : ∀ i c, cols.get? i = some c → j + i = k → isFKWithRefs c = false)
    (r : ℕ) :
    cellAt rows' r k = cellAt rows r k := by
  induction cols generalizing j rows with
  | nil =>
    simp only [phase2Cols] at hok
    cases hok
    rfl
  | cons c cs ih =>
    simp only [phase2Cols] at hok
    have hskip' : ∀ i c', cs.get? i = some c' → (j + 1) + i = k →
        isFKWithRefs c' = false := by
      intro i c' hi hk
      exact hskip (i + 1) c' (by simpa using hi) (by omega)
    split at hok
    · rename_i hfk
      split at hok
      · cases hok
      · split at hok
        · cases hok
        · have hjk : j ≠ k := by
            intro hjk
            have := hskip 0 c (by simp) (by omega)
            rw [hfk] at this
            cases this
          rw [ih _ _ hok hskip', fkWriteAux_cell_ne _ _ _ _ _ _ _ _ (fun h => hjk h.symm)]
    · exact ih _ _ hok hskip'

theorem phase2Cols_fk (env : GenEnv) (t : String) (ckv : CKV)
    (cols : List SchemaColumn) (j : ℕ) (rows rows' : List Row)
    (hok : phase2Cols env t ckv cols j rows = .ok rows')
    (i : ℕ) (c : SchemaColumn) (hi : cols.get? i = some c)
    (hfk : isFKWithRefs c = true)
    (hw : ∀ r row, rows.get? r = some row → j + i < row.length) :
    ∃ rvs, lookupCKV ckv ((c.referencedTable.getD "") ++ "." ++ (c.referencedColumn.getD "")) = some rvs ∧
      rvs ≠ [] ∧
      ∀ r row, rows'.get? r = some row →
        row.get? (j + i) = some (some (fkDraw env t (j + i) r rvs)) := by
  induction cols generalizing j rows i with
  | nil => cases hi
  | cons c' cs ih =>
    simp only [phase2Cols] at hok
    cases i with
    | zero =>
      have hc : c = c' := by simpa using hi.symm
      subst hc
      rw [if_pos hfk] at hok
      split at hok
      · cases hok
      · rename_i rvs hlook
        split at hok
        · cases hok
        · rename_i hlen
          refine ⟨rvs, hlook, fun he => hlen (by rw [he]; rfl), ?_⟩
          intro r row hrow
          have hcell := phase2Cols_cell_skip env t ckv cs (j + 1)
            (fkWriteAux env t j rvs 0 rows) rows' hok j
            (fun i c'' _ hji => absurd hji (by omega)) r
          have hshape := phase2Cols_shape env t ckv cs (j + 1)
            (fkWriteAux env t j rvs 0 rows) rows' hok
          have hr : r < rows.length := by
            have h1 : r < rows'.length := (List.get?_eq_some.1 hrow).1
            rw [hshape.1, fkWriteAux_length] at h1
            exact h1
          obtain ⟨row0, hrow0⟩ : ∃ row0, rows.get? r = some row0 := by
            rw [List.get?_eq_get hr]
            exact ⟨_, rfl⟩
          have hwidth : j < row0.length := by simpa using hw r row0 hrow0
          have hcell2 : cellAt (fkWriteAux env t j rvs 0 rows) r j =
              some (some (fkDraw env t j r rvs)) := by
            unfold cellAt
            rw [fkWriteAux_get?, hrow0]
            simp [Nat.zero_add, List.getElem?_set_self hwidth]
          have hfinal : cellAt rows' r j = some (some (fkDraw env t j r rvs)) := by
            rw [hcell, hcell2]
          unfold cellAt at hfinal
          rw [hrow] at hfinal
          simpa using hfinal
    | succ i' =>
      have hi' : cs.get? i' = some c := by simpa using hi
      have hidx : (j + 1) + i' = j + (i' + 1) := by omega
      split at hok
      · split at hok
        · cases hok
        · rename_i rvs0 hlook0
          split at hok
          · cases hok
          · have hw' : ∀ r row, (fkWriteAux env t j rvs0 0 rows).get? r = some row →
                (j + 1) + i' < row.length := by
              intro r row h
              rw [fkWriteAux_get?] at h
              cases hrows : rows.get? r with
              | none => rw [hrows] at h; cases h
              | some row0 =>
                rw [hrows] at h
                have : row = row0.set j (some (fkDraw env t j (0 + r) rvs0)) := by
                  simpa using h.symm
                rw [this, List.length_set]
                have := hw r row0 hrows
                omega
            have := ih (j + 1) (fkWriteAux env t j rvs0 0 rows) hok i' hi' hw'
            rw [hidx] at this
            exact this
      · have hw' : ∀ r row, rows.get? r = some row → (j + 1) + i' < row.length := by
          intro r row h
          have := hw r row h
          omega
        have := ih (j + 1) rows hok i' hi' hw'
        rw [hidx] at this
        exact this

theorem phase1Tables_entries (env : GenEnv) (columns : List SchemaColumn)
    (dR : ℕ) (ov : List (String × ℕ)) (ts : List String)
    (acc : List (String × TableData)) (ckv : CKV)
    (gd : List (String × TableData)) (ckvF : CKV)
    (hok : phase1Tables env columns dR ov ts acc ckv = .ok (gd, ckvF))
    (t : String) (td : TableData) (hmem : (t, td) ∈ gd) :
    (t, td) ∈ acc ∨
    ∃ ckvIn rowsOut ckvOut,
      phase1Cols env (columns.filter (fun c => c.tableName = t)) 0
        (rowsFor ov dR t)
        (List.replicate (rowsFor ov dR t)
          (List.replicate (columns.filter (fun c => c.tableName = t)).length none))
        ckvIn = .ok (rowsOut, ckvOut) ∧
      td = ⟨(columns.filter (fun c => c.tableName = t)).map (fun c => c.columnName),
            rowsOut⟩ := by
  induction ts generalizing acc ckv with
  | nil =>
    simp only [phase1Tables] at hok
    cases hok
    exact Or.inl hmem
  | cons t' ts' ih =>
    simp only [phase1Tables] at hok
    split at hok
    · cases hok
    · rename_i res hp
      rcases ih _ _ hok with hacc | hrest
      · rcases List.mem_append.1 hacc with h | h
        · exact Or.inl h
        · simp only [List.mem_singleton] at h
          cases h
          exact Or.inr ⟨ckv, res.1, res.2, by rw [← hp], rfl⟩
      · exact Or.inr hrest

theorem phase2Tables_entries (env : GenEnv) (columns : List SchemaColumn)
    (ckv : CKV) (input : List (String × TableData))
    (out : List (String × TableData))
    (hok : phase2Tables env columns ckv input = .ok out)
    (t : String) (td' : TableData) (hmem : (t, td') ∈ out) :
    ∃ td, (t, td) ∈ input ∧ td'.columns = td.columns ∧
      phase2Cols env t ckv (columns.filter (fun c => c.tableName = t)) 0 td.rows =
        .ok td'.rows := by
  induction input generalizing out with
  | nil =>
    simp only [phase2Tables] at hok
    cases hok
    cases hmem
  | cons e rest ih =>
    obtain ⟨t0, td0⟩ := e
    simp only [phase2Tables] at hok
    split at hok
    · cases hok
    · rename_i rows1 hp2
      split at hok
      · cases hok
      · rename_i out1 hrest
        cases hok
        rcases List.mem_cons.1 hmem with h | h
        · rw [Prod.mk.injEq] at h
          obtain ⟨h1, h2⟩ := h
          subst h2
          subst h1
          exact ⟨td0, by simp, rfl, hp2⟩
        · obtain ⟨td, hin, hcols, hph⟩ := ih out1 hrest h
          exact ⟨td, List.mem_cons_of_mem _ hin, hcols, hph⟩

/-- The catalog lookup of the name `"Foreign Key"` always succeeds (the
foreign-key generator is registered). -/
theorem registryGet_foreignKey (env : GenEnv) :
    registryGet env "Foreign Key" = some (Catalog.foreignKeyGenerator env) := rfl

/-- Shape of a table's phase-1 output: `rowsFor` rows, each of the
table's column width. -/
theorem phase1_rows_shape (env : GenEnv) (cols : List SchemaColumn)
    (n W : ℕ) (ckvIn : CKV) (rowsOut : List Row) (ckvOut : CKV)
    (hok : phase1Cols env cols 0 n (List.replicate n (List.replicate W none)) ckvIn =
      .ok (rowsOut, ckvOut)) :
    rowsOut.length = n ∧
    ∀ r row, rowsOut.get? r = some row → row.length = W := by
  obtain ⟨h1, h2⟩ := phase1Cols_shape env cols 0 n _ ckvIn rowsOut ckvOut hok
  refine ⟨by simpa using h1, fun r row hrow => ?_⟩
  have hr : r < n := by
    have := (List.get?_eq_some.1 hrow).1
    rw [h1] at this
    simpa using this
  have := h2 r
  rw [hrow, List.get?_eq_get (by simpa using hr)] at this
  simpa using this

/-- C1: foreign-key value consistency.  For any generation run that
completes, every value emitted in a foreign-key column whose reference
resolved is an exact member of the value sequence realized in phase 1
for its referenced `table.column` (the candidate-key index entry). -/
theorem executor_fk_values_from_phase1 (env : GenEnv) (hv : EnvValid env)
    (columns : List SchemaColumn) (dR : ℕ) (ov : List (String × ℕ))
    (gd : List (String × TableData))
    (hok : executeGeneration env columns dR ov = .ok gd)
    (t : String) (td : TableData) (hmem : (t, td) ∈ gd)
    (j : ℕ) (c : SchemaColumn)
    (hj : (columns.filter (fun c => c.tableName = t)).get? j = some c)
    (hfk : isFKWithRefs c = true) :
    ∃ ckv rvs, phase1CKV env columns dR ov = some ckv ∧
      lookupCKV ckv ((c.referencedTable.getD "") ++ "." ++ (c.referencedColumn.getD "")) =
        some rvs ∧ rvs ≠ [] ∧
      ∀ row ∈ td.rows, ∀ v, row.get? j = some (some v) → v ∈ rvs := by
  unfold executeGeneration at hok
  cases hp1 : phase1Tables env columns dR ov (uniqueTables columns) [] [] with
  | error e => rw [hp1] at hok; cases hok
  | ok res =>
    rw [hp1] at hok
    obtain ⟨td1, hmem1, _, hp2⟩ :=
      phase2Tables_entries env columns res.2 res.1 gd hok t td hmem
    rcases phase1Tables_entries env columns dR ov _ [] [] res.1 res.2 hp1 t td1 hmem1 with
      hacc | ⟨ckvIn, rowsOut, ckvOut, hph1, hteq⟩
    · cases hacc
    · obtain ⟨-, hwidth⟩ := phase1_rows_shape env _ _ _ _ _ _ hph1
      have hw : ∀ r row, td1.rows.get? r = some row → 0 + j < row.length := by
        intro r row hrow
        rw [hteq] at hrow
        have := hwidth r row hrow
        have hjlen : j < (columns.filter (fun c => c.tableName = t)).length :=
          (List.get?_eq_some.1 hj).1
        omega
      obtain ⟨rvs, hlook, hne, hcells⟩ :=
        phase2Cols_fk env t res.2 _ 0 td1.rows td.rows hp2 j c hj hfk hw
      refine ⟨res.2, rvs, by unfold phase1CKV; rw [hp1], hlook, hne, ?_⟩
      intro row hrow v hcv
      obtain ⟨r, hr⟩ := List.mem_iff_get?.1 hrow
      have hcell := hcells r row hr
      rw [Nat.zero_add] at hcell
      rw [hcv] at hcell
      have hveq : v = fkDraw env t j r rvs := by
        simpa using hcell
      rw [hveq]
      exact fk_pick_mem rvs hne (env.rand2 t j r) (hv.2 t j r).1 (hv.2 t j r).2

/-- The end-to-end scenario of the specification: `customers(id)` with a
Sequential Number generator and `orders(customer_id)` referencing
`customers.id` with the Foreign Key generator. -/
def demoCols : List SchemaColumn :=
  [{ tableName := "customers", columnName := "id", dataType := "INT",
     defaultValue := none, generator := some "Sequential Number" },
   { tableName := "orders", columnName := "customer_id", dataType := "INT",
     defaultValue := none, generator := some "Foreign Key",
     referencedTable := some "customers", referencedColumn := some "id" }]

/-- The foreign-key column of the scenario. -/
def demoFKCol : SchemaColumn :=
  { tableName := "orders", columnName := "customer_id", dataType := "INT",
    defaultValue := none, generator := some "Foreign Key",
    referencedTable := some "customers", referencedColumn := some "id" }

/-- Row-count overrides of the scenario: 5 `customers` rows, 20 `orders`
rows. -/
def demoOv : List (String × ℕ) := [("customers", 5), ("orders", 20)]

/-- The `orders` output at the constant environment (every draw picks
index `⌊1/2 · 5⌋ = 2`, the realized value `"3"`). -/
def demoOrdersTD : TableData :=
  ⟨["customer_id"], List.replicate 20 [some (.str "3")]⟩

/-- The full dataset of the scenario at the constant environment. -/
def demoGd : List (String × TableData) :=
  [("customers", ⟨["id"], [[some (.str "1")], [some (.str "2")], [some (.str "3")],
    [some (.str "4")], [some (.str "5")]]⟩),
   ("orders", demoOrdersTD)]

/-- The constant environment is a valid randomness source. -/
theorem constEnv_valid : EnvValid constEnv := by
  refine ⟨fun i => ?_, fun t j r => ?_⟩ <;>
    exact ⟨by norm_num [constEnv], by norm_num [constEnv]⟩

/-- C1 witness: in the scenario, phase 1 realizes
`customers.id = ["1","2","3","4","5"]` and every `orders.customer_id`
value is a member of that sequence. -/
theorem executor_fk_values_witness :
    (∃ ckv rvs,
      phase1CKV constEnv demoCols 10 demoOv = some ckv ∧
      lookupCKV ckv "customers.id" = some rvs ∧ rvs ≠ [] ∧
      ∀ row ∈ demoOrdersTD.rows, ∀ v, row.get? 0 = some (some v) → v ∈ rvs) ∧
    phase1CKV constEnv demoCols 10 demoOv =
      some [("customers.id", [.str "1", .str "2", .str "3", .str "4", .str "5"])] := by
  constructor
  · exact executor_fk_values_from_phase1 constEnv constEnv_valid
      demoCols 10 demoOv demoGd (by decide) "orders" demoOrdersTD (by decide)
      0 demoFKCol (by decide) (by decide)
  · decide

/-- A column with no assigned generator (or an unresolvable name) is
skipped by phase 1. -/
theorem unassigned_skips_phase1 (env : GenEnv) (c : SchemaColumn)
    (hpred : c.generator = none ∨ c.generator = some "" ∨
      registryGet env (c.generator.getD "") = none) :
    isAssignedNonFK c = false ∨ registryGet env (c.generator.getD "") = none := by
  rcases hpred with h | h | h
  · left; simp [isAssignedNonFK, h]
  · left; simp [isAssignedNonFK, h]
  · right; exact h

/-- A column with no assigned generator (or an unresolvable name) is
skipped by phase 2 as well: in particular an unresolvable name cannot be
`"Foreign Key"`, which always resolves. -/
theorem unassigned_skips_phase2 (env : GenEnv) (c : SchemaColumn)
    (hpred : c.generator = none ∨ c.generator = some "" ∨
      registryGet env (c.generator.getD "") = none) :
    isFKWithRefs c = false := by
  rcases hpred with h | h | h
  · simp [isFKWithRefs, h]
  · simp [isFKWithRefs, h]
  · unfold isFKWithRefs
    cases hg : c.generator with
    | none => simp
    | some s =>
      by_cases hs : s = "Foreign Key"
      · rw [hg] at h
        subst hs
        rw [Option.getD_some, registryGet_foreignKey] at h
        cases h
      · simp [hs]

/-- C10: the rows-by-columns shape of the dataset is pre-allocated and
independent of generator assignments.  For every completed run, every
table reports its column-name list in schema order, exactly `rowsFor`
rows of exactly one slot per column, and a column with no generator
assigned (or whose name resolves to no catalog entry) is still present
with `null` in every row position. -/
theorem executor_dataset_shape (env : GenEnv)
    (columns : List SchemaColumn) (dR : ℕ) (ov : List (String × ℕ))
    (gd : List (String × TableData))
    (hok : executeGeneration env columns dR ov = .ok gd)
    (t : String) (td : TableData) (hmem : (t, td) ∈ gd) :
    td.columns = (columns.filter (fun c => c.tableName = t)).map (fun c => c.columnName) ∧
    td.rows.length = rowsFor ov dR t ∧
    (∀ row ∈ td.rows, row.length = (columns.filter (fun c => c.tableName = t)).length) ∧
    (∀ j c, (columns.filter (fun c => c.tableName = t)).get? j = some c →
      (c.generator = none ∨ c.generator = some "" ∨
        registryGet env (c.generator.getD "") = none) →
      ∀ row ∈ td.rows, row.get? j = some none) := by
  unfold executeGeneration at hok
  cases hp1 : phase1Tables env columns dR ov (uniqueTables columns) [] [] with
  | error e => rw [hp1] at hok; cases hok
  | ok res =>
    rw [hp1] at hok
    obtain ⟨td1, hmem1, hcols, hp2⟩ :=
      phase2Tables_entries env columns res.2 res.1 gd hok t td hmem
    rcases phase1Tables_entries env columns dR ov _ [] [] res.1 res.2 hp1 t td1 hmem1 with
      hacc | ⟨ckvIn, rowsOut, ckvOut, hph1, hteq⟩
    · cases hacc
    · obtain ⟨hlen1, hwidth⟩ := phase1_rows_shape env _ _ _ _ _ _ hph1
      obtain ⟨hlen2, hrowlen2⟩ := phase2Cols_shape env t res.2 _ 0 td1.rows td.rows hp2
      have hrows1 : td1.rows = rowsOut := by rw [hteq]
      refine ⟨by rw [hcols, hteq], ?_, ?_, ?_⟩
      · rw [hlen2, hrows1, hlen1]
      · intro row hrow
        obtain ⟨r, hr⟩ := List.mem_iff_get?.1 hrow
        have := hrowlen2 r
        rw [hr, hrows1] at this
        cases hro : rowsOut.get? r with
        | none => rw [hro] at this; cases this
        | some row0 =>
          rw [hro] at this
          have hl0 := hwidth r row0 hro
          simp only [Option.map_some', Option.some.injEq] at this
          omega
      · intro j c hj hpred row hrow
        obtain ⟨r, hr⟩ := List.mem_iff_get?.1 hrow
        have hskip2 : ∀ i c', (columns.filter (fun c => c.tableName = t)).get? i = some c' →
            0 + i = j → isFKWithRefs c' = false := by
          intro i c' hi hij
          rw [Nat.zero_add] at hij
          subst hij
          rw [hj] at hi
          injection hi with hcc
          subst hcc
          exact unassigned_skips_phase2 env c hpred
        have hcell2 := phase2Cols_cell_skip env t res.2 _ 0 td1.rows td.rows hp2 j hskip2 r
        have hskip1 : ∀ i c', (columns.filter (fun c => c.tableName = t)).get? i = some c' →
            0 + i = j → isAssignedNonFK c' = false ∨
              registryGet env (c'.generator.getD "") = none := by
          intro i c' hi hij
          rw [Nat.zero_add] at hij
          subst hij
          rw [hj] at hi
          injection hi with hcc
          subst hcc
          exact unassigned_skips_phase1 env c hpred
        have hcell1 := phase1Cols_cell_skip env _ 0 (rowsFor ov dR t) _ ckvIn rowsOut ckvOut hph1 j hskip1 r
        have hrlt : r < rowsFor ov dR t := by
          have h1 : r < td.rows.length := (List.get?_eq_some.1 hr).1
          rw [hlen2, hrows1, hlen1] at h1
          exact h1
        have hjW : j < (columns.filter (fun c => c.tableName = t)).length :=
          (List.get?_eq_some.1 hj).1
        have hinit : cellAt (List.replicate (rowsFor ov dR t)
            (List.replicate (columns.filter (fun c => c.tableName = t)).length
              (none : Option Value))) r j = some none := by
          unfold cellAt
          simp [List.getElem?_replicate, hrlt, hjW]
        have hchain : cellAt td.rows r j = some none := by
          rw [hcell2, hrows1, hcell1, hinit]
        unfold cellAt at hchain
        rw [hr] at hchain
        simpa using hchain

/-- A two-column table in which only `a` has a generator; `b` is
unassigned. -/
def shapeCols : List SchemaColumn :=
  [{ tableName := "t", columnName := "a", dataType := "INT",
     defaultValue := none, generator := some "Sequential Number" },
   { tableName := "t", columnName := "b", dataType := "VARCHAR",
     defaultValue := none, generator := none }]

/-- The generated table for `shapeCols` at the constant environment:
three rows of two slots, the unassigned column all `null`. -/
def shapeTD : TableData :=
  ⟨["a", "b"], [[some (.str "1"), none], [some (.str "2"), none],
    [some (.str "3"), none]]⟩

/-- C10 witness: the shape invariant instantiated on `shapeCols` with
3 rows — the unassigned column `b` appears in the column list and holds
`null` in every row. -/
theorem executor_dataset_shape_witness :
    shapeTD.columns =
      (shapeCols.filter (fun c => c.tableName = "t")).map (fun c => c.columnName) ∧
    shapeTD.rows.length = rowsFor [] 3 "t" ∧
    (∀ row ∈ shapeTD.rows, row.length =
      (shapeCols.filter (fun c => c.tableName = "t")).length) ∧
    (∀ j c, (shapeCols.filter (fun c => c.tableName = "t")).get? j = some c →
      (c.generator = none ∨ c.generator = some "" ∨
        registryGet constEnv (c.generator.getD "") = none) →
      ∀ row ∈ shapeTD.rows, row.get? j = some none) :=
  executor_dataset_shape constEnv shapeCols 3 [] [("t", shapeTD)] (by decide)
    "t" shapeTD (by decide)

/-- The only generator that can fail when invoked with no options (as
the executor does) is the Foreign Key generator, and its message is the
referential error with empty reference names. -/
theorem generate_empty_opts_error (env : GenEnv) (g : GeneratorConfig)
    (hg : g ∈ registryGenerators env) (n : ℕ) (e : String)
    (hgen : g.generate n {} = .error e) : e = fkErrMsg "" "" := by
  simp only [registryGenerators, List.mem_cons, List.not_mem_nil, or_false] at hg
  rcases hg with rfl | rfl | rfl | rfl | rfl | rfl | rfl | rfl | rfl | rfl | rfl |
    rfl | rfl | rfl | rfl | rfl | rfl | rfl | rfl | rfl
  all_goals try exact Except.noConfusion hgen
  -- the Foreign Key generator with empty options
  have hfk : (Catalog.foreignKeyGenerator env).generate n {} = .error (fkErrMsg "" "") := rfl
  rw [hfk] at hgen
  injection hgen with h
  exact h.symm

theorem phase1Cols_error (env : GenEnv) (cols : List SchemaColumn)
    (j n : ℕ) (rows : List Row) (ckv : CKV) (e : String)
    (herr : phase1Cols env cols j n rows ckv = .error e) : e = fkErrMsg "" "" := by
  induction cols generalizing j rows ckv with
  | nil => cases herr
  | cons c cs ih =>
    simp only [phase1Cols] at herr
    split at herr
    · split at herr
      · exact ih _ _ _ herr
      · rename_i g hreg
        split at herr
        · rename_i e' hgen
          injection herr with h
          subst h
          have hmem : g ∈ registryGenerators env := by
            unfold registryGet at hreg
            exact List.mem_of_find?_eq_some hreg
          exact generate_empty_opts_error env g hmem n _ hgen
        · exact ih _ _ _ herr
    · exact ih _ _ _ herr

theorem phase1Tables_error (env : GenEnv) (columns : List SchemaColumn)
    (dR : ℕ) (ov : List (String × ℕ)) (ts : List String)
    (acc : List (String × TableData)) (ckv : CKV) (e : String)
    (herr : phase1Tables env columns dR ov ts acc ckv = .error e) :
    e = fkErrMsg "" "" := by
  induction ts generalizing acc ckv with
  | nil => cases herr
  | cons t' ts' ih =>
    simp only [phase1Tables] at herr
    split at herr
    · rename_i e' hp
      injection herr with h
      subst h
      exact phase1Cols_error env _ _ _ _ _ _ hp
    · exact ih _ _ herr

theorem phase2Cols_error (env : GenEnv) (t : String) (ckv : CKV)
    (cols : List SchemaColumn) (j : ℕ) (rows : List Row) (e : String)
    (herr : phase2Cols env t ckv cols j rows = .error e) :
    ∃ rt rc, e = fkErrMsg rt rc := by
  induction cols generalizing j rows with
  | nil => cases herr
  | cons c cs ih =>
    simp only [phase2Cols] at herr
    split at herr
    · split at herr
      · injection herr with h
        exact ⟨_, _, h.symm⟩
      · split at herr
        · injection herr with h
          exact ⟨_, _, h.symm⟩
        · exact ih _ _ herr
    · exact ih _ _ herr

theorem phase2Tables_error (env : GenEnv) (columns : List SchemaColumn)
    (ckv : CKV) (input : List (String × TableData)) (e : String)
    (herr : phase2Tables env columns ckv input = .error e) :
    ∃ rt rc, e = fkErrMsg rt rc := by
  induction input generalizing e with
  | nil => cases herr
  | cons p rest ih =>
    obtain ⟨t0, td0⟩ := p
    simp only [phase2Tables] at herr
    split at herr
    · rename_i e' hp
      injection herr with h
      subst h
      exact phase2Cols_error env t0 ckv _ 0 td0.rows _ hp
    · split at herr
      · rename_i e' hrest
        injection herr with h
        subst h
        exact ih _ hrest
      · cases herr

/-- C4, amended: an execution-time generator name that matches no
catalog entry never aborts the run — the executor's only abort is the
referential foreign-key error.  Every error the executor can return is a
"No referenced values available" message. -/
theorem executor_errors_are_referential (env : GenEnv)
    (columns : List SchemaColumn) (dR : ℕ) (ov : List (String × ℕ)) (e : String)
    (herr : executeGeneration env columns dR ov = .error e) :
    ∃ rt rc, e = fkErrMsg rt rc := by
  unfold executeGeneration at herr
  split at herr
  · rename_i e' hp1
    injection herr with h
    subst h
    exact ⟨"", "", phase1Tables_error env columns dR ov _ [] [] _ hp1⟩
  · exact phase2Tables_error env columns _ _ _ herr

/-- A table whose only column names a generator absent from the
catalog. -/
def unresolvedCols : List SchemaColumn :=
  [{ tableName := "t", columnName := "a", dataType := "INT",
     defaultValue := none, generator := some "Nonexistent" }]

/-- C4 counterexample: with a column whose `generatorName` matches no
catalog entry, the run does **not** abort — it completes and produces a
dataset (the unmatched column is silently skipped and left `null`),
contradicting the claimed GeneratorNotFound abort. -/
theorem executor_unresolved_name_completes :
    executeGeneration constEnv unresolvedCols 2 [] =
      .ok [("t", ⟨["a"], [[none], [none]]⟩)] := by decide

/-- A foreign-key column whose reference resolves to nothing. -/
def danglingFKCols : List SchemaColumn :=
  [{ tableName := "o", columnName := "cid", dataType := "INT",
     defaultValue := none, generator := some "Foreign Key",
     referencedTable := some "x", referencedColumn := some "y" }]

/-- C4 witness: a run that does error (a dangling foreign-key
reference) carries a referential message, as classified by
`executor_errors_are_referential`. -/
theorem executor_errors_witness :
    executeGeneration constEnv danglingFKCols 2 [] = .error (fkErrMsg "x" "y") ∧
    ∃ rt rc, fkErrMsg "x" "y" = fkErrMsg rt rc :=
  ⟨by decide,
   executor_errors_are_referential constEnv danglingFKCols 2 [] _ (by decide)⟩
